import Mathlib

/-!
Verification of the analytics core of the London Bike Analysis dashboard
(`app.py`): the SQL aggregation queries (utilisation calculator, peak
detector, problem-station ranker, flow/imbalance analyzer) and the derived
insight arithmetic, shallowly embedded over lists of records.  SQL numeric
division is modelled over `ℚ`, machine integers over `Nat`/`Int`.
-/

namespace LondonBikes

/-- A timestamp at the granularity the queries extract from it: a date
(day index) and an hour of day. -/
structure Timestamp where
  date : Nat
  hour : Nat
  deriving DecidableEq, Repr

/-- `EXTRACT(DAYOFWEEK FROM ts)`: BigQuery numbering 1=Sunday .. 7=Saturday,
a pure function of the date. -/
def dayOfWeek (date : Nat) : Nat := date % 7 + 1

/-- Timestamp comparison, for the `BETWEEN` window filters. -/
def tsLe (a b : Timestamp) : Bool :=
  decide (a.date < b.date) || (a.date == b.date && decide (a.hour ≤ b.hour))

/-- `ts BETWEEN TIMESTAMP(start) AND TIMESTAMP(end)`. -/
def inWindow (ws we t : Timestamp) : Bool := tsLe ws t && tsLe t we

/-- A row of `cycle_stations`. -/
structure Station where
  id : Nat
  name : String
  docksCount : Int
  deriving DecidableEq, Repr

/-- A row of `cycle_hire`. -/
structure Trip where
  startStationId : Nat
  endStationId : Nat
  startTs : Timestamp
  endTs : Timestamp
  deriving DecidableEq, Repr

/-! ## Derived-Insight Formatter: intervals and revenue arithmetic -/

/-- The `interval_days` dictionary of the sidebar. -/
def interval_days : String → Option Nat
  | "Daily" => some 1
  | "Weekly" => some 7
  | "Monthly" => some 30
  | "Quarterly" => some 90
  | "Annual" => some 365
  | _ => none

/-- `total_days = (end_date - start_date).days`, dates as day numbers. -/
def total_days (startD endD : Int) : Int := endD - startD

/-- `num_intervals = max(1, total_days // interval_days_count)`; Python `//`
is floor division, `Int.fdiv`.  The same expression reappears as
`intervals_in_period` at line 331. -/
def num_intervals (startD endD : Int) (intervalDaysCount : Nat) : Int :=
  max 1 (Int.fdiv (total_days startD endD) (intervalDaysCount : Int))

/-- `capacity_instances_per_interval = most_at_capacity_count / intervals_in_period`,
float division modelled over `ℚ`. -/
def capacity_instances_per_interval (count : Nat) (intervals : Int) : ℚ :=
  (count : ℚ) / (intervals : ℚ)

/-- `avg_bike_rental_fee = 1.65` (pounds for the first 30 minutes). -/
def avg_bike_rental_fee : ℚ := 165 / 100

/-- `lost_rentals_estimate = most_at_capacity_count * 5`. -/
def lost_rentals_estimate (mostAtCapacityCount : Nat) : Nat :=
  mostAtCapacityCount * 5

/-- `revenue_impact = lost_rentals_estimate * avg_bike_rental_fee`. -/
def revenue_impact (mostAtCapacityCount : Nat) : ℚ :=
  (lost_rentals_estimate mostAtCapacityCount : ℚ) * avg_bike_rental_fee

/-- `revenue_impact_per_interval = revenue_impact / intervals_in_period`. -/
def revenue_impact_per_interval (mostAtCapacityCount : Nat) (intervals : Int) : ℚ :=
  revenue_impact mostAtCapacityCount / (intervals : ℚ)

/-! ## run_query error boundary -/

/-- `run_query` runs a query and, on any exception, reports the error to the
UI and returns an empty DataFrame.  The external execution is modelled by its
outcome: either a result table or an error message. -/
def run_query (α : Type) (outcome : Except String (List α)) : List α :=
  match outcome with
  | .ok rows => rows
  | .error _ => []

/-! ## Utilisation Calculator: the hourly_station_status CTE -/

/-- A row of the `hourly_station_status` (and `hourly_data`) CTE. -/
structure HourlySlot where
  endStationId : Nat
  stationName : String
  totalDocks : Int
  date : Nat
  hour : Nat
  dayOfWeek : Nat
  arrivalsInHour : Nat
  utilisationPct : ℚ
  deriving DecidableEq, Repr

/-- The grouping key of `hourly_station_status`:
`GROUP BY h.end_station_id, s.name, s.docks_count, date, hour, day_of_week`. -/
structure SlotKey where
  endStationId : Nat
  stationName : String
  totalDocks : Int
  date : Nat
  hour : Nat
  dayOfWeek : Nat
  deriving DecidableEq, Repr

/-- The join of `cycle_hire` with `cycle_stations` on
`end_station_id = s.id`, filtered to trips ending in the window and to
stations with `docks_count > 0`. -/
def hireStationJoin (trips : List Trip) (stations : List Station)
    (ws we : Timestamp) : List (Trip × Station) :=
  trips.flatMap (fun t =>
    (stations.filter (fun s =>
        t.endStationId == s.id && decide ((0:Int) < s.docksCount)
          && inWindow ws we t.endTs)).map (fun s => (t, s)))

/-- Grouping key of a joined row. -/
def slotKey (r : Trip × Station) : SlotKey :=
  ⟨r.1.endStationId, r.2.name, r.2.docksCount, r.1.endTs.date, r.1.endTs.hour,
    dayOfWeek r.1.endTs.date⟩

/-- The key of an output slot. -/
def slotKeyOf (sl : HourlySlot) : SlotKey :=
  ⟨sl.endStationId, sl.stationName, sl.totalDocks, sl.date, sl.hour, sl.dayOfWeek⟩

/-- `hourly_station_status`: one row per group, with
`COUNT(*) AS arrivals_in_hour` and
`COUNT(*) / s.docks_count * 100 AS utilisation_pct`. -/
def hourly_station_status (trips : List Trip) (stations : List Station)
    (ws we : Timestamp) : List HourlySlot :=
  ((hireStationJoin trips stations ws we).map slotKey).dedup.map (fun k =>
    let n := ((hireStationJoin trips stations ws we).filter
        (fun r => slotKey r == k)).length
    ⟨k.endStationId, k.stationName, k.totalDocks, k.date, k.hour, k.dayOfWeek,
      n, (n : ℚ) / (k.totalDocks : ℚ) * 100⟩)

/-! ## Problem-Station Ranker: the per-station bucket counts -/

/-- The subquery's input rows for one `(station_name, total_docks)` group:
`FROM hourly_station_status WHERE utilisation_pct >= 80 AND total_docks > 0`. -/
def rankerSlots (slots : List HourlySlot) (name : String) (docks : Int) :
    List HourlySlot :=
  slots.filter (fun sl =>
    sl.stationName == name && sl.totalDocks == docks
      && decide ((80:ℚ) ≤ sl.utilisationPct) && decide ((0:Int) < sl.totalDocks))

/-- `COUNT(*) AS instances_near_capacity` over the group (all retained slots,
i.e. all slots at utilisation 80% or above). -/
def instances_near_capacity (slots : List HourlySlot) (name : String)
    (docks : Int) : Nat :=
  (rankerSlots slots name docks).length

/-- `COUNTIF(utilisation_pct >= 100) AS instances_at_capacity`. -/
def instances_at_capacity (slots : List HourlySlot) (name : String)
    (docks : Int) : Nat :=
  ((rankerSlots slots name docks).filter
    (fun sl => decide ((100:ℚ) ≤ sl.utilisationPct))).length

/-- The count the spec ascribes to `instances_near_capacity`: slots with
utilisation in [80, 100), stated in the spec's words for comparison with the
query's actual count. -/
def specNearCount (slots : List HourlySlot) (name : String) (docks : Int) : Nat :=
  ((rankerSlots slots name docks).filter
    (fun sl => decide (sl.utilisationPct < 100))).length

/-- Predicate of `COUNTIF(utilisation_pct >= 80 AND utilisation_pct < 100)`
in the hourly capacity query. -/
def isNearCapacity (sl : HourlySlot) : Bool :=
  decide ((80:ℚ) ≤ sl.utilisationPct) && decide (sl.utilisationPct < 100)

/-- Predicate of `COUNTIF(utilisation_pct >= 100)` in the hourly capacity
query. -/
def isAtCapacity (sl : HourlySlot) : Bool :=
  decide ((100:ℚ) ≤ sl.utilisationPct)

/-- `near_capacity_count` of one `(hour, day_name)` group of hourly_data. -/
def near_capacity_count (group : List HourlySlot) : Nat :=
  (group.filter isNearCapacity).length

/-- `at_capacity_count` of one `(hour, day_name)` group of hourly_data. -/
def at_capacity_count (group : List HourlySlot) : Nat :=
  (group.filter isAtCapacity).length

/-! ## Peak Detector: the peak_hours CTE -/

/-- A row of the `peak_hours` CTE. -/
structure PeakRow where
  stationName : String
  hour : Nat
  dayOfWeek : Nat
  numOccurrences : Nat
  avgUtilAtHour : ℚ
  deriving DecidableEq, Repr

/-- Grouping key `(station_name, hour, day_of_week)` of `peak_hours`. -/
def peakKey (sl : HourlySlot) : String × Nat × Nat :=
  (sl.stationName, sl.hour, sl.dayOfWeek)

/-- `FROM hourly_station_status WHERE utilisation_pct >= 95`. -/
def highUtilSlots (slots : List HourlySlot) : List HourlySlot :=
  slots.filter (fun sl => decide ((95:ℚ) ≤ sl.utilisationPct))

/-- The grouped rows of `peak_hours`, with `COUNT(*) AS num_occurrences` and
`AVG(utilisation_pct) AS avg_util_at_hour`, before the `QUALIFY` clause. -/
def peak_hours (slots : List HourlySlot) : List PeakRow :=
  ((highUtilSlots slots).map peakKey).dedup.map (fun k =>
    let grp := (highUtilSlots slots).filter (fun sl => peakKey sl == k)
    ⟨k.1, k.2.1, k.2.2, grp.length,
      (grp.map HourlySlot.utilisationPct).sum / (grp.length : ℚ)⟩)

/-- The strict ordering used by
`ROW_NUMBER() OVER (... ORDER BY num_occurrences DESC, avg_util_at_hour DESC)`:
`a` sorts strictly before `b`. -/
def betterPeak (a b : PeakRow) : Bool :=
  decide (b.numOccurrences < a.numOccurrences)
    || (a.numOccurrences == b.numOccurrences
          && decide (b.avgUtilAtHour < a.avgUtilAtHour))

/-- `QUALIFY ROW_NUMBER() OVER (PARTITION BY station_name ...) = 1` for one
partition: the surviving row of the station's partition.  When two rows tie
on both sort keys, `ROW_NUMBER` numbers them in the order the engine
enumerates them, modelled here by the list order; this fold keeps the
earliest row among full ties. -/
def peakStep (acc : Option PeakRow) (r : PeakRow) : Option PeakRow :=
  match acc with
  | none => some r
  | some b => if betterPeak r b then some r else some b

def selectPeak (station : String) (rows : List PeakRow) : Option PeakRow :=
  (rows.filter (fun r => r.stationName == station)).foldl peakStep none

/-! ## Station-specific hourly capacity rows and top-element selections -/

/-- A row of the hourly capacity query's output (one per `(hour, day_name)`). -/
structure HourlyCapacityRow where
  hour : Nat
  dayName : String
  avgArrivals : ℚ
  avgUtilisationPct : ℚ
  maxUtilisationPct : ℚ
  nearCapacityCount : Nat
  atCapacityCount : Nat
  deriving DecidableEq, Repr

/-- The weekday/weekend split applied to `hourly_capacity_df`. -/
def isWeekendDay (dayName : String) : Bool :=
  dayName == "Saturday" || dayName == "Sunday"

/-- `weekday_data`: rows whose day is not a weekend day. -/
def weekday_data (df : List HourlyCapacityRow) : List HourlyCapacityRow :=
  df.filter (fun r => !isWeekendDay r.dayName)

/-- `weekend_data`: rows whose day is a weekend day. -/
def weekend_data (df : List HourlyCapacityRow) : List HourlyCapacityRow :=
  df.filter (fun r => isWeekendDay r.dayName)

/-- pandas `Series.idxmax` followed by `.loc`: the first row attaining the
maximum of `f`.  pandas raises a `ValueError` on an empty frame; the failure
is modelled as `none`. -/
def idxmaxRow (f : HourlyCapacityRow → ℚ) :
    List HourlyCapacityRow → Option HourlyCapacityRow
  | [] => none
  | r :: rs =>
    match idxmaxRow f rs with
    | none => some r
    | some b => if decide (f r < f b) then some b else some r

/-- `peak_hour_weekday = weekday_data.loc[weekday_data['avg_utilisation_pct'].idxmax()]`,
executed unguarded whenever `hourly_capacity_df` is nonempty. -/
def peak_hour_weekday (df : List HourlyCapacityRow) : Option HourlyCapacityRow :=
  idxmaxRow (fun r => r.avgUtilisationPct) (weekday_data df)

/-- `peak_hour_weekend`, the weekend counterpart. -/
def peak_hour_weekend (df : List HourlyCapacityRow) : Option HourlyCapacityRow :=
  idxmaxRow (fun r => r.avgUtilisationPct) (weekend_data df)

/-- A row of the ranked problem-station output (the columns the insight code
reads). -/
structure ProblemStationRow where
  stationName : String
  totalDocks : Int
  instancesNearCapacity : Nat
  instancesAtCapacity : Nat
  peakHour : Option Nat
  deriving DecidableEq, Repr

/-- `full_stations_df.iloc[0]['station_name']`, reached only under
`if not full_stations_df.empty`. -/
def most_at_capacity (df : List ProblemStationRow) : Option String :=
  df.head?.map (fun r => r.stationName)

/-- `full_stations_df.iloc[0]['instances_at_capacity']` under the same guard. -/
def most_at_capacity_count (df : List ProblemStationRow) : Option Nat :=
  df.head?.map (fun r => r.instancesAtCapacity)

/-! ## Flow/Imbalance Analyzer: the station_flows CTE -/

/-- A row of the `station_flows` CTE. -/
structure StationFlowRow where
  stationId : Nat
  stationName : String
  totalDocks : Int
  outflows : Nat
  inflows : Nat
  netFlow : Int
  deriving DecidableEq, Repr

/-- `WHERE s.docks_count > 0` on `cycle_stations`. -/
def eligible_stations (stations : List Station) : List Station :=
  stations.filter (fun s => decide ((0:Int) < s.docksCount))

/-- Grouping key `GROUP BY s.id, s.name, s.docks_count`. -/
def stationKey (s : Station) : Nat × String × Int := (s.id, s.name, s.docksCount)

/-- The trips joined to one station id by
`ON (s.id = h.start_station_id OR s.id = h.end_station_id)
AND h.start_date BETWEEN ...`. -/
def station_trips (trips : List Trip) (ws we : Timestamp) (sid : Nat) :
    List Trip :=
  trips.filter (fun t =>
    (t.startStationId == sid || t.endStationId == sid)
      && inWindow ws we t.startTs)

/-- All joined (station, trip) rows of the LEFT JOIN that have a matching
trip; stations with no match contribute a null trip row that every
conditional count ignores, so they are represented by their absence here. -/
def flow_pairs (stations : List Station) (trips : List Trip)
    (ws we : Timestamp) : List (Station × Trip) :=
  (eligible_stations stations).flatMap (fun s =>
    (station_trips trips ws we s.id).map (fun t => (s, t)))

/-- `station_flows`: one row per group key, with
`COUNT(CASE WHEN h.start_station_id = s.id THEN 1 END) AS outflows`,
`COUNT(CASE WHEN h.end_station_id = s.id THEN 1 END) AS inflows` and their
difference as `net_flow`. -/
def station_flows (stations : List Station) (trips : List Trip)
    (ws we : Timestamp) : List StationFlowRow :=
  ((eligible_stations stations).map stationKey).dedup.map (fun k =>
    let pairs := (flow_pairs stations trips ws we).filter
        (fun p => stationKey p.1 == k)
    let o := (pairs.filter (fun p => p.2.startStationId == k.1)).length
    let i := (pairs.filter (fun p => p.2.endStationId == k.1)).length
    ⟨k.1, k.2.1, k.2.2, o, i, (i : Int) - (o : Int)⟩)

/-- The `CASE` classification appended in the outer SELECT. -/
def station_type (netFlow : Int) : String :=
  if 0 < netFlow then "Accumulator (Fills Up)"
  else if netFlow < 0 then "Generator (Empties Out)"
  else "Balanced"

/-- The significance filter
`WHERE (outflows > 0 OR inflows > 0) AND ABS(net_flow) > 20`. -/
def significantB (r : StationFlowRow) : Bool :=
  (decide (0 < r.outflows) || decide (0 < r.inflows))
    && decide ((20:Int) < |r.netFlow|)

/-- The station_flows rows the combined query actually returns. -/
def reported_station_flows (stations : List Station) (trips : List Trip)
    (ws we : Timestamp) : List StationFlowRow :=
  (station_flows stations trips ws we).filter significantB

/-- `total_imbalance = station_flows_df['net_flow'].abs().sum() / 2` over the
returned (filtered) rows. -/
def total_imbalance (stations : List Station) (trips : List Trip)
    (ws we : Timestamp) : ℚ :=
  ((((reported_station_flows stations trips ws we).map
      (fun r => r.netFlow.natAbs)).sum : Nat) : ℚ) / 2

/-- The imbalance the spec describes: the same sum taken over every
station_flows row, stated in the spec's words for comparison. -/
def spec_total_imbalance (stations : List Station) (trips : List Trip)
    (ws we : Timestamp) : ℚ :=
  ((((station_flows stations trips ws we).map
      (fun r => r.netFlow.natAbs)).sum : Nat) : ℚ) / 2

/-- `generators_df.iloc[0]['name'] if not generators_df.empty else "generator stations"`. -/
def generator_station (generators : List StationFlowRow) : String :=
  match generators.head? with
  | some r => r.stationName
  | none => "generator stations"

/-- The trips whose start timestamp lies in the window (the population the
flow analysis counts). -/
def window_trips (trips : List Trip) (ws we : Timestamp) : List Trip :=
  trips.filter (fun t => inWindow ws we t.startTs)

/-! ## General counting lemmas -/

lemma sum_map_sub_int {α : Type} (l : List α) (f g : α → ℕ) :
    (l.map (fun x => (f x : Int) - (g x : Int))).sum
      = ((l.map f).sum : Int) - ((l.map g).sum : Int) := by
  induction l with
  | nil => simp
  | cons a l ih =>
    simp only [List.map_cons, List.sum_cons, ih]
    push_cast
    ring

lemma sum_map_ite_one {α : Type} (l : List α) (p : α → Bool) :
    (l.map (fun x => if p x then 1 else 0)).sum = l.countP p := by
  induction l with
  | nil => simp
  | cons a l ih =>
    rw [List.map_cons, List.sum_cons, List.countP_cons, ih]
    by_cases h : p a = true
    · simp [h]
      omega
    · simp [h]

lemma sum_map_eq_of_countP_one {α : Type} (l : List α) (p : α → Bool)
    (f : α → ℕ) (v : ℕ) (h1 : l.countP p = 1)
    (h2 : ∀ x ∈ l, p x = true → f x = v)
    (h3 : ∀ x ∈ l, p x = false → f x = 0) :
    (l.map f).sum = v := by
  induction l with
  | nil => simp at h1
  | cons a l ih =>
    rw [List.countP_cons] at h1
    by_cases hpa : p a = true
    · rw [if_pos hpa] at h1
      have hl0 : l.countP p = 0 := by omega
      have hz : (l.map f).sum = 0 := by
        apply List.sum_eq_zero
        intro x hx
        obtain ⟨y, hy, rfl⟩ := List.mem_map.mp hx
        have hpy : p y = false := by
          have := List.countP_eq_zero.mp hl0 y hy
          cases h : p y
          · rfl
          · exact absurd h this
        exact h3 y (List.mem_cons_of_mem _ hy) hpy
      rw [List.map_cons, List.sum_cons, hz, h2 a (List.mem_cons_self a l) hpa]
      omega
    · have hpa' : p a = false := by
        cases h : p a
        · rfl
        · exact absurd h hpa
      rw [if_neg hpa, Nat.add_zero] at h1
      rw [List.map_cons, List.sum_cons, h3 a (List.mem_cons_self a l) hpa',
        ih h1 (fun x hx => h2 x (List.mem_cons_of_mem _ hx))
          (fun x hx => h3 x (List.mem_cons_of_mem _ hx))]
      omega

lemma sum_filter_lengths {α κ : Type} (W : List α) (keys : List κ)
    (f : α → Nat) (g : κ → Nat)
    (hnd : (keys.map g).Nodup) (hcov : ∀ t ∈ W, f t ∈ keys.map g) :
    (keys.map (fun k => (W.filter (fun t => f t == g k)).length)).sum
      = W.length := by
  induction W with
  | nil => simp
  | cons t W ih =>
    have hcov' : ∀ x ∈ W, f x ∈ keys.map g :=
      fun x hx => hcov x (List.mem_cons_of_mem _ hx)
    have hstep : (keys.map (fun k =>
        (List.filter (fun x => f x == g k) (t :: W)).length))
        = keys.map (fun k => (if f t == g k then 1 else 0)
            + (List.filter (fun x => f x == g k) W).length) := by
      apply List.map_congr_left
      intro k _
      rw [List.filter_cons]
      split <;> simp [*] <;> omega
    rw [hstep, List.sum_map_add, sum_map_ite_one, ih hcov']
    have hcount : keys.countP (fun k => f t == g k) = 1 := by
      have hm : f t ∈ keys.map g := hcov t (List.mem_cons_self t W)
      have h1 : List.count (f t) (keys.map g) = 1 :=
        List.count_eq_one_of_mem hnd hm
      rw [List.count_eq_countP, List.countP_map] at h1
      rw [← h1]
      apply List.countP_congr
      intro k _
      simp only [Function.comp]
      constructor
      · intro h
        have : f t = g k := by simpa using h
        simp [this]
      · intro h
        have : g k = f t := by simpa using h
        simp [this]
    rw [hcount]
    simp [Nat.add_comm]

/-! ## station_flows structure lemmas -/

lemma eligible_ids_nodup {stations : List Station}
    (hnd : (stations.map Station.id).Nodup) :
    ((eligible_stations stations).map Station.id).Nodup :=
  hnd.sublist (List.Sublist.map _ (List.filter_sublist _))

lemma keys_countP_one {stations : List Station}
    (hnd : (stations.map Station.id).Nodup) {k : Nat × String × Int}
    (hk : k ∈ ((eligible_stations stations).map stationKey).dedup) :
    (eligible_stations stations).countP (fun s => stationKey s == k) = 1 := by
  have hmem : k ∈ (eligible_stations stations).map stationKey :=
    List.mem_dedup.mp hk
  obtain ⟨s0, hs0, hks0⟩ := List.mem_map.mp hmem
  have hle : (eligible_stations stations).countP (fun s => stationKey s == k)
      ≤ (eligible_stations stations).countP (fun s => s.id == k.1) := by
    apply List.countP_mono_left
    intro s _ h
    have hks : stationKey s = k := by simpa using h
    have : s.id = k.1 := by rw [← hks]; rfl
    simp [this]
  have hidcount : (eligible_stations stations).countP (fun s => s.id == k.1)
      = List.count k.1 ((eligible_stations stations).map Station.id) := by
    rw [List.count_eq_countP, List.countP_map]
    rfl
  have hidmem : k.1 ∈ (eligible_stations stations).map Station.id :=
    List.mem_map.mpr ⟨s0, hs0, by rw [← hks0]; rfl⟩
  have hone : List.count k.1 ((eligible_stations stations).map Station.id) = 1 :=
    List.count_eq_one_of_mem (eligible_ids_nodup hnd) hidmem
  have hge : 0 < (eligible_stations stations).countP
      (fun s => stationKey s == k) := by
    rw [List.countP_pos_iff]
    exact ⟨s0, hs0, by simp [hks0]⟩
  omega

lemma flow_pairs_filter_length (stations : List Station) (trips : List Trip)
    (ws we : Timestamp) (q : Trip → Bool)
    (hnd : (stations.map Station.id).Nodup) {k : Nat × String × Int}
    (hk : k ∈ ((eligible_stations stations).map stationKey).dedup) :
    (((flow_pairs stations trips ws we).filter
        (fun p => stationKey p.1 == k)).filter (fun p => q p.2)).length
      = ((station_trips trips ws we k.1).filter q).length := by
  rw [List.filter_filter]
  unfold flow_pairs
  rw [List.filter_flatMap, List.length_flatMap]
  apply sum_map_eq_of_countP_one _ (fun s => stationKey s == k) _ _
    (keys_countP_one hnd hk)
  · intro s _ hps
    have hkey : stationKey s = k := by simpa using hps
    have hid : s.id = k.1 := by rw [← hkey]; rfl
    simp only [Function.comp_apply, List.filter_map, List.length_map]
    have hpred : ((fun p : Station × Trip => q p.2 && (stationKey p.1 == k))
        ∘ (fun t => (s, t))) = fun t => q t := by
      funext t
      simp [Function.comp, hps]
    rw [hpred, hid]
  · intro s _ hps
    simp only [Function.comp_apply, List.filter_map, List.length_map]
    have hpred : ((fun p : Station × Trip => q p.2 && (stationKey p.1 == k))
        ∘ (fun t => (s, t))) = fun _ => false := by
      funext t
      simp [Function.comp, hps]
    rw [hpred]
    simp

lemma station_trips_start (trips : List Trip) (ws we : Timestamp) (sid : Nat) :
    (station_trips trips ws we sid).filter (fun t => t.startStationId == sid)
      = (window_trips trips ws we).filter (fun t => t.startStationId == sid) := by
  unfold station_trips window_trips
  rw [List.filter_filter, List.filter_filter]
  apply List.filter_congr
  intro t _
  cases hs : t.startStationId == sid <;>
    cases hw : inWindow ws we t.startTs <;> simp [hs, hw]

lemma station_trips_end (trips : List Trip) (ws we : Timestamp) (sid : Nat) :
    (station_trips trips ws we sid).filter (fun t => t.endStationId == sid)
      = (window_trips trips ws we).filter (fun t => t.endStationId == sid) := by
  unfold station_trips window_trips
  rw [List.filter_filter, List.filter_filter]
  apply List.filter_congr
  intro t _
  cases hs : t.startStationId == sid <;> cases he : t.endStationId == sid <;>
    cases hw : inWindow ws we t.startTs <;> simp [hs, he, hw]

/-- The trip-level description of a station's `station_flows` row. -/
def flowRowOf (trips : List Trip) (ws we : Timestamp) (s : Station) :
    StationFlowRow :=
  ⟨s.id, s.name, s.docksCount,
    ((window_trips trips ws we).filter (fun t => t.startStationId == s.id)).length,
    ((window_trips trips ws we).filter (fun t => t.endStationId == s.id)).length,
    (((window_trips trips ws we).filter
        (fun t => t.endStationId == s.id)).length : Int)
      - (((window_trips trips ws we).filter
        (fun t => t.startStationId == s.id)).length : Int)⟩

lemma eligible_keys_nodup {stations : List Station}
    (hnd : (stations.map Station.id).Nodup) :
    ((eligible_stations stations).map stationKey).Nodup := by
  apply List.Nodup.of_map (fun k : Nat × String × Int => k.1)
  rw [List.map_map]
  exact eligible_ids_nodup hnd

lemma station_flows_eq (stations : List Station) (trips : List Trip)
    (ws we : Timestamp) (hnd : (stations.map Station.id).Nodup) :
    station_flows stations trips ws we
      = (eligible_stations stations).map (flowRowOf trips ws we) := by
  unfold station_flows
  have hself : ((eligible_stations stations).map stationKey).dedup
      = (eligible_stations stations).map stationKey :=
    List.dedup_eq_self.mpr (eligible_keys_nodup hnd)
  have hmemk : ∀ s ∈ eligible_stations stations,
      stationKey s ∈ ((eligible_stations stations).map stationKey).dedup := by
    intro s hs
    rw [hself]
    exact List.mem_map.mpr ⟨s, hs, rfl⟩
  rw [hself, List.map_map]
  apply List.map_congr_left
  intro s hs
  have ho := flow_pairs_filter_length stations trips ws we
    (fun t => t.startStationId == (stationKey s).1) hnd (hmemk s hs)
  have hi := flow_pairs_filter_length stations trips ws we
    (fun t => t.endStationId == (stationKey s).1) hnd (hmemk s hs)
  simp only [Function.comp_apply]
  rw [ho, hi, station_trips_start, station_trips_end]
  rfl

lemma station_type_iff (n : Int) :
    (station_type n = "Accumulator (Fills Up)" ↔ 0 < n)
      ∧ (station_type n = "Generator (Empties Out)" ↔ n < 0)
      ∧ (station_type n = "Balanced" ↔ n = 0) := by
  unfold station_type
  by_cases h1 : 0 < n
  · rw [if_pos h1]
    exact ⟨⟨fun _ => h1, fun _ => rfl⟩,
      ⟨fun hc => absurd hc (by decide), fun h => by omega⟩,
      ⟨fun hc => absurd hc (by decide), fun h => by omega⟩⟩
  · rw [if_neg h1]
    by_cases h2 : n < 0
    · rw [if_pos h2]
      exact ⟨⟨fun hc => absurd hc (by decide), fun h => by omega⟩,
        ⟨fun _ => h2, fun _ => rfl⟩,
        ⟨fun hc => absurd hc (by decide), fun h => by omega⟩⟩
    · rw [if_neg h2]
      exact ⟨⟨fun hc => absurd hc (by decide), fun h => by omega⟩,
        ⟨fun hc => absurd hc (by decide), fun h => by omega⟩,
        ⟨fun _ => by omega, fun _ => rfl⟩⟩

/-- C5: each station_flows row counts outflows as the window trips starting
at the station, inflows as the window trips ending there, net_flow as their
difference; the CASE classification is Accumulator / Generator / Balanced by
the sign of net_flow; and every row the combined query reports passes the
significance filter (outflows > 0 OR inflows > 0) AND |net_flow| > 20. -/
theorem station_flows_spec (stations : List Station) (trips : List Trip)
    (ws we : Timestamp) (hnd : (stations.map Station.id).Nodup) :
    (∀ r ∈ station_flows stations trips ws we,
      r.outflows = ((window_trips trips ws we).filter
          (fun t => t.startStationId == r.stationId)).length
        ∧ r.inflows = ((window_trips trips ws we).filter
          (fun t => t.endStationId == r.stationId)).length
        ∧ r.netFlow = (r.inflows : Int) - (r.outflows : Int)
        ∧ (station_type r.netFlow = "Accumulator (Fills Up)" ↔ 0 < r.netFlow)
        ∧ (station_type r.netFlow = "Generator (Empties Out)" ↔ r.netFlow < 0)
        ∧ (station_type r.netFlow = "Balanced" ↔ r.netFlow = 0))
    ∧ ∀ r ∈ reported_station_flows stations trips ws we,
        (0 < r.outflows ∨ 0 < r.inflows) ∧ (20:Int) < |r.netFlow| := by
  constructor
  · intro r hr
    rw [station_flows_eq stations trips ws we hnd] at hr
    obtain ⟨s, _, rfl⟩ := List.mem_map.mp hr
    exact ⟨rfl, rfl, rfl, (station_type_iff _).1, (station_type_iff _).2.1,
      (station_type_iff _).2.2⟩
  · intro r hr
    have hmem := List.mem_filter.mp hr
    have hsig := hmem.2
    simp only [significantB, Bool.and_eq_true, Bool.or_eq_true,
      decide_eq_true_eq] at hsig
    exact hsig

def c5Stations : List Station := [⟨1, "A", 5⟩, ⟨2, "B", 6⟩]

def c5Trips : List Trip :=
  [⟨1, 2, ⟨1, 8⟩, ⟨1, 9⟩⟩, ⟨1, 2, ⟨1, 9⟩, ⟨1, 10⟩⟩, ⟨2, 1, ⟨1, 10⟩, ⟨1, 11⟩⟩]

def c5Row : StationFlowRow := ⟨1, "A", 5, 2, 1, -1⟩

/-- Witness for `station_flows_spec` at a concrete two-station system. -/
theorem station_flows_spec_witness :
    c5Row.outflows = ((window_trips c5Trips ⟨0, 0⟩ ⟨2, 0⟩).filter
        (fun t => t.startStationId == c5Row.stationId)).length
      ∧ (station_type c5Row.netFlow = "Generator (Empties Out)"
          ↔ c5Row.netFlow < 0) :=
  ⟨((station_flows_spec c5Stations c5Trips ⟨0, 0⟩ ⟨2, 0⟩ (by decide)).1 c5Row
      (by decide)).1,
   ((station_flows_spec c5Stations c5Trips ⟨0, 0⟩ ⟨2, 0⟩ (by decide)).1 c5Row
      (by decide)).2.2.2.2.1⟩

/-- C8: in a closed system whose trips start and end at stations of the
eligible set (dock count > 0, distinct ids), the net flows computed by
station_flows sum to zero; a self-loop trip contributes one inflow and one
outflow to the same station. -/
theorem net_flow_conservation (stations : List Station) (trips : List Trip)
    (ws we : Timestamp) (hnd : (stations.map Station.id).Nodup)
    (hclosed : ∀ t ∈ trips,
      t.startStationId ∈ (eligible_stations stations).map Station.id
        ∧ t.endStationId ∈ (eligible_stations stations).map Station.id) :
    ((station_flows stations trips ws we).map StationFlowRow.netFlow).sum = 0 := by
  rw [station_flows_eq stations trips ws we hnd, List.map_map]
  have hfun : (StationFlowRow.netFlow ∘ flowRowOf trips ws we)
      = fun s => ((((window_trips trips ws we).filter
            (fun t => t.endStationId == s.id)).length : Int))
          - (((window_trips trips ws we).filter
            (fun t => t.startStationId == s.id)).length : Int) := rfl
  rw [hfun, sum_map_sub_int]
  have hin : ((eligible_stations stations).map (fun s =>
      ((window_trips trips ws we).filter
        (fun t => t.endStationId == s.id)).length)).sum
      = (window_trips trips ws we).length := by
    apply sum_filter_lengths (window_trips trips ws we)
      (eligible_stations stations) (fun t => t.endStationId) Station.id
      (eligible_ids_nodup hnd)
    intro t ht
    exact (hclosed t (List.mem_filter.mp ht).1).2
  have hout : ((eligible_stations stations).map (fun s =>
      ((window_trips trips ws we).filter
        (fun t => t.startStationId == s.id)).length)).sum
      = (window_trips trips ws we).length := by
    apply sum_filter_lengths (window_trips trips ws we)
      (eligible_stations stations) (fun t => t.startStationId) Station.id
      (eligible_ids_nodup hnd)
    intro t ht
    exact (hclosed t (List.mem_filter.mp ht).1).1
  rw [hin, hout, sub_self]

def consExStations : List Station := [⟨1, "A", 5⟩, ⟨2, "B", 8⟩]

def consExTrips : List Trip :=
  [⟨1, 2, ⟨1, 8⟩, ⟨1, 9⟩⟩, ⟨2, 1, ⟨1, 10⟩, ⟨1, 11⟩⟩, ⟨2, 2, ⟨1, 12⟩, ⟨1, 12⟩⟩]

/-- Witness for `net_flow_conservation` on a closed system containing a
self-loop trip. -/
theorem net_flow_conservation_witness :
    (consExStations.map Station.id).Nodup
      ∧ ((station_flows consExStations consExTrips ⟨0, 0⟩ ⟨2, 0⟩).map
          StationFlowRow.netFlow).sum = 0 :=
  ⟨by decide,
    net_flow_conservation consExStations consExTrips ⟨0, 0⟩ ⟨2, 0⟩
      (by decide) (by decide)⟩

/-- C2 amended: the reported system-wide imbalance halves the sum of
|net_flow| over only the eligible stations that pass the significance
filter, each net flow being the trip-level inflow/outflow difference. -/
theorem total_imbalance_significant_only (stations : List Station)
    (trips : List Trip) (ws we : Timestamp)
    (hnd : (stations.map Station.id).Nodup) :
    total_imbalance stations trips ws we
      = ((((eligible_stations stations).filter
            (fun s => significantB (flowRowOf trips ws we s))).map
            (fun s => (flowRowOf trips ws we s).netFlow.natAbs)).sum : ℚ) / 2 := by
  unfold total_imbalance reported_station_flows
  rw [station_flows_eq stations trips ws we hnd, List.filter_map, List.map_map]
  rfl

def imbalanceExStations : List Station :=
  [⟨1, "A", 10⟩, ⟨2, "B", 10⟩, ⟨3, "C", 10⟩]

def imbalanceExTrips : List Trip :=
  (List.replicate 21 ⟨1, 2, ⟨1, 0⟩, ⟨1, 1⟩⟩) ++ [⟨1, 3, ⟨1, 0⟩, ⟨1, 1⟩⟩]

/-- C2 counterexample: with 21 trips A→B and one trip A→C, station C has
|net_flow| = 1 ≤ 20 and is dropped by the significance filter, so the
reported imbalance (43/2) differs from the sum over all stations (44/2). -/
theorem total_imbalance_ne_all_stations :
    total_imbalance imbalanceExStations imbalanceExTrips ⟨0, 0⟩ ⟨2, 0⟩
      ≠ spec_total_imbalance imbalanceExStations imbalanceExTrips ⟨0, 0⟩ ⟨2, 0⟩ := by
  have h1 : ((reported_station_flows imbalanceExStations imbalanceExTrips
      ⟨0, 0⟩ ⟨2, 0⟩).map (fun r => r.netFlow.natAbs)).sum = 43 := by decide
  have h2 : ((station_flows imbalanceExStations imbalanceExTrips
      ⟨0, 0⟩ ⟨2, 0⟩).map (fun r => r.netFlow.natAbs)).sum = 44 := by decide
  unfold total_imbalance spec_total_imbalance
  rw [h1, h2]
  norm_num

/-- Witness for `total_imbalance_significant_only` at the same input. -/
theorem total_imbalance_significant_only_witness :
    total_imbalance imbalanceExStations imbalanceExTrips ⟨0, 0⟩ ⟨2, 0⟩
      = ((((eligible_stations imbalanceExStations).filter
            (fun s => significantB (flowRowOf imbalanceExTrips ⟨0, 0⟩ ⟨2, 0⟩ s))).map
            (fun s => (flowRowOf imbalanceExTrips ⟨0, 0⟩ ⟨2, 0⟩ s).netFlow.natAbs)).sum
          : ℚ) / 2 :=
  total_imbalance_significant_only imbalanceExStations imbalanceExTrips
    ⟨0, 0⟩ ⟨2, 0⟩ (by decide)

/-! ## Interval, revenue and error-boundary claims -/

/-- C7: for an interval length from the selector and a window with
end ≥ start, num_intervals is at least 1 — in particular exactly 1 for a
zero-day window — so every per-interval rate has a nonzero divisor. -/
theorem num_intervals_pos (name : String) (d : Nat) (s e : Int)
    (hname : interval_days name = some d) (hse : s ≤ e) :
    1 ≤ num_intervals s e d ∧ num_intervals s e d ≠ 0
      ∧ ((num_intervals s e d : ℚ) ≠ 0)
      ∧ (e = s → num_intervals s e d = 1) := by
  have h1 : 1 ≤ num_intervals s e d := le_max_left 1 _
  refine ⟨h1, by omega, ?_, ?_⟩
  · exact Int.cast_ne_zero.mpr (by omega)
  · intro he
    unfold num_intervals total_days
    rw [he, sub_self, Int.zero_fdiv]
    decide

/-- Witness for `num_intervals_pos`: a zero-day weekly window. -/
theorem num_intervals_pos_witness : num_intervals 3 3 7 = 1 :=
  (num_intervals_pos "Weekly" 7 3 3 rfl le_rfl).2.2.2 rfl

/-- C9: the revenue impact estimate is instances_at_capacity × 5 assumed
lost rentals × £1.65, and the per-interval figure divides that product by
intervals_in_period. -/
theorem revenue_impact_formula : ∀ (c : Nat) (k : Int),
    revenue_impact c = (c : ℚ) * 5 * (165 / 100)
      ∧ revenue_impact_per_interval c k = revenue_impact c / (k : ℚ) := by
  intro c k
  constructor
  · unfold revenue_impact lost_rentals_estimate avg_bike_rental_fee
    push_cast
    ring
  · rfl

/-- C10: run_query maps any failed execution to an empty result table,
indistinguishable from a successful query that matched no rows. -/
theorem run_query_error_empty : ∀ (α : Type) (msg : String),
    run_query α (Except.error msg) = []
      ∧ run_query α (Except.error msg) = run_query α (Except.ok []) :=
  fun _ _ => ⟨rfl, rfl⟩

/-! ## Empty-frame selections (§2.1 insights) -/

def weekendOnlyDf : List HourlyCapacityRow :=
  [⟨10, "Saturday", 5, 90, 120, 3, 1⟩]

/-- C3: an hourly table with only Saturday rows passes the nonemptiness
guard, yet its weekday subset is empty, so the unguarded weekday idxmax has
no value (pandas raises ValueError there); the sibling selections guarded
against emptiness return their defaults. -/
theorem peak_hour_weekday_unguarded :
    weekendOnlyDf ≠ []
      ∧ weekday_data weekendOnlyDf = []
      ∧ peak_hour_weekday weekendOnlyDf = none
      ∧ peak_hour_weekend weekendOnlyDf
          = some ⟨10, "Saturday", 5, 90, 120, 3, 1⟩
      ∧ most_at_capacity [] = none
      ∧ generator_station [] = "generator stations" := by
  refine ⟨by decide, by decide, by decide, by decide, rfl, rfl⟩

/-! ## Capacity bucket claims -/

lemma length_filter_split {α : Type} (l : List α) (p q : α → Bool)
    (h : ∀ a ∈ l, q a = !p a) :
    l.length = (l.filter p).length + (l.filter q).length := by
  induction l with
  | nil => rfl
  | cons a l ih =>
    have ha := h a (List.mem_cons_self a l)
    have ih' := ih (fun x hx => h x (List.mem_cons_of_mem _ hx))
    cases hp : p a
    · rw [hp] at ha
      simp only [Bool.not_false] at ha
      simp only [List.filter_cons, hp, ha, List.length_cons, if_true,
        Bool.false_eq_true, if_false]
      omega
    · rw [hp] at ha
      simp only [Bool.not_true] at ha
      simp only [List.filter_cons, hp, ha, List.length_cons, if_true,
        Bool.false_eq_true, if_false]
      omega

lemma near_at_partition (group : List HourlySlot) :
    near_capacity_count group + at_capacity_count group
      = (group.filter (fun sl => decide ((80:ℚ) ≤ sl.utilisationPct))).length := by
  unfold near_capacity_count at_capacity_count
  induction group with
  | nil => rfl
  | cons sl g ih =>
    by_cases h80 : (80:ℚ) ≤ sl.utilisationPct
    · by_cases h100 : (100:ℚ) ≤ sl.utilisationPct
      · have hlt : ¬ sl.utilisationPct < 100 := not_lt.mpr h100
        simp [List.filter_cons, isNearCapacity, isAtCapacity, h80, h100, hlt]
        omega
      · have hlt : sl.utilisationPct < 100 := lt_of_not_ge h100
        simp [List.filter_cons, isNearCapacity, isAtCapacity, h80, h100, hlt]
        omega
    · have h100 : ¬ (100:ℚ) ≤ sl.utilisationPct := by
        intro h
        exact h80 (le_trans (by norm_num) h)
      simp [List.filter_cons, isNearCapacity, isAtCapacity, h80, h100]
      omega

def atBoundarySlot : HourlySlot := ⟨1, "A", 10, 0, 8, 1, 10, 100⟩

/-- C1 counterexample: a slot with arrival_count = dock_count (utilisation
exactly 100) is counted by the ranker both in instances_near_capacity and in
instances_at_capacity, while the count of slots in [80,100) is 0 — so
instances_near_capacity is not the [80,100) count and the ranker's buckets
are not mutually exclusive. -/
theorem near_capacity_not_exclusive :
    instances_near_capacity [atBoundarySlot] "A" 10 = 1
      ∧ instances_at_capacity [atBoundarySlot] "A" 10 = 1
      ∧ specNearCount [atBoundarySlot] "A" 10 = 0
      ∧ atBoundarySlot.arrivalsInHour = 10
      ∧ atBoundarySlot.totalDocks = 10
      ∧ atBoundarySlot.utilisationPct = 100 := by
  refine ⟨by decide, by decide, by decide, rfl, rfl, rfl⟩

/-! ## Utilisation Calculator claims -/

lemma hireStationJoin_mem {trips : List Trip} {stations : List Station}
    {ws we : Timestamp} {r : Trip × Station}
    (h : r ∈ hireStationJoin trips stations ws we) :
    r.1 ∈ trips ∧ r.2 ∈ stations ∧ r.1.endStationId = r.2.id
      ∧ 0 < r.2.docksCount ∧ inWindow ws we r.1.endTs = true := by
  unfold hireStationJoin at h
  obtain ⟨t, ht, hr⟩ := List.mem_flatMap.mp h
  obtain ⟨s, hs, rfl⟩ := List.mem_map.mp hr
  obtain ⟨hsmem, hpred⟩ := List.mem_filter.mp hs
  simp only [Bool.and_eq_true, beq_iff_eq, decide_eq_true_eq] at hpred
  exact ⟨ht, hsmem, hpred.1.1, hpred.1.2, hpred.2⟩

lemma hourly_keys (trips : List Trip) (stations : List Station)
    (ws we : Timestamp) :
    (hourly_station_status trips stations ws we).map slotKeyOf
      = ((hireStationJoin trips stations ws we).map slotKey).dedup := by
  unfold hourly_station_status
  rw [List.map_map]
  have hcomp : (slotKeyOf ∘ fun k : SlotKey =>
      (⟨k.endStationId, k.stationName, k.totalDocks, k.date, k.hour,
        k.dayOfWeek,
        ((hireStationJoin trips stations ws we).filter
          (fun r => slotKey r == k)).length,
        (((hireStationJoin trips stations ws we).filter
          (fun r => slotKey r == k)).length : ℚ) / (k.totalDocks : ℚ) * 100⟩
        : HourlySlot)) = id := by
    funext k
    rfl
  rw [hcomp, List.map_id]

lemma hourly_slot_mem (trips : List Trip) (stations : List Station)
    (ws we : Timestamp) {sl : HourlySlot}
    (h : sl ∈ hourly_station_status trips stations ws we) :
    0 < sl.totalDocks
      ∧ sl.utilisationPct
          = (sl.arrivalsInHour : ℚ) / (sl.totalDocks : ℚ) * 100
      ∧ sl.arrivalsInHour = ((hireStationJoin trips stations ws we).filter
          (fun r => slotKey r == slotKeyOf sl)).length := by
  unfold hourly_station_status at h
  obtain ⟨k, hk, rfl⟩ := List.mem_map.mp h
  have hkj : k ∈ (hireStationJoin trips stations ws we).map slotKey :=
    List.mem_dedup.mp hk
  obtain ⟨r, hr, hrk⟩ := List.mem_map.mp hkj
  have hdocks : 0 < k.totalDocks := by
    have := (hireStationJoin_mem hr).2.2.2.1
    rw [← hrk]
    exact this
  exact ⟨hdocks, rfl, rfl⟩

/-- C6: the utilisation calculator emits exactly one slot per
(station, date, hour, day-of-week) group: the output keys are nodup, a key
appears iff some window trip joins with it, arrival_count is the group size,
utilisation_pct is arrivals / dock_count × 100, and every slot's dock count
is positive, so the division never has a zero denominator. -/
theorem hourly_station_status_spec (trips : List Trip)
    (stations : List Station) (ws we : Timestamp) :
    ((hourly_station_status trips stations ws we).map slotKeyOf).Nodup
      ∧ (∀ k : SlotKey,
          k ∈ (hourly_station_status trips stations ws we).map slotKeyOf
            ↔ k ∈ (hireStationJoin trips stations ws we).map slotKey)
      ∧ ∀ sl ∈ hourly_station_status trips stations ws we,
          0 < sl.totalDocks ∧ ((sl.totalDocks : ℚ) ≠ 0)
            ∧ sl.utilisationPct
                = (sl.arrivalsInHour : ℚ) / (sl.totalDocks : ℚ) * 100
            ∧ sl.arrivalsInHour
                = ((hireStationJoin trips stations ws we).filter
                  (fun r => slotKey r == slotKeyOf sl)).length := by
  refine ⟨?_, ?_, ?_⟩
  · rw [hourly_keys]
    exact List.nodup_dedup _
  · intro k
    rw [hourly_keys]
    exact List.mem_dedup
  · intro sl hsl
    have h := hourly_slot_mem trips stations ws we hsl
    exact ⟨h.1, Int.cast_ne_zero.mpr (ne_of_gt h.1), h.2.1, h.2.2⟩

def c6Stations : List Station := [⟨1, "A", 10⟩]

def c6Trips : List Trip := [⟨2, 1, ⟨0, 7⟩, ⟨0, 8⟩⟩, ⟨3, 1, ⟨0, 7⟩, ⟨0, 8⟩⟩]

def c6Slot : HourlySlot :=
  ⟨1, "A", 10, 0, 8, 1, 2, ((2:ℕ) : ℚ) / ((10:Int) : ℚ) * 100⟩

/-- Witness for `hourly_station_status_spec`: two trips arriving at the same
station in the same hour yield one slot with arrival count 2. -/
theorem hourly_station_status_spec_witness :
    0 < c6Slot.totalDocks ∧ ((c6Slot.totalDocks : ℚ) ≠ 0)
      ∧ c6Slot.utilisationPct
          = (c6Slot.arrivalsInHour : ℚ) / (c6Slot.totalDocks : ℚ) * 100
      ∧ c6Slot.arrivalsInHour
          = ((hireStationJoin c6Trips c6Stations ⟨0, 0⟩ ⟨1, 0⟩).filter
            (fun r => slotKey r == slotKeyOf c6Slot)).length :=
  (hourly_station_status_spec c6Trips c6Stations ⟨0, 0⟩ ⟨1, 0⟩).2.2 c6Slot
    (by
      have h : hourly_station_status c6Trips c6Stations ⟨0, 0⟩ ⟨1, 0⟩
          = [c6Slot] := rfl
      rw [h]
      exact List.mem_singleton_self _)

/-- C1 amended: the hourly capacity query's buckets are exact and mutually
exclusive — [80,100) and ≥100 partition the slots at 80%+ and no slot
satisfies both predicates — but the ranker's instances_near_capacity counts
every slot at 80%+ including the at-capacity ones: it equals
instances_at_capacity plus the count of [80,100) slots, so a slot at exactly
100% is counted in both ranker buckets. -/
theorem capacity_buckets (slots group : List HourlySlot) (name : String)
    (docks : Int) :
    instances_near_capacity slots name docks
        = instances_at_capacity slots name docks
            + specNearCount slots name docks
      ∧ near_capacity_count group + at_capacity_count group
          = (group.filter (fun sl => decide ((80:ℚ) ≤ sl.utilisationPct))).length
      ∧ (∀ sl : HourlySlot, isNearCapacity sl = true → isAtCapacity sl = false)
      ∧ ∀ (trips : List Trip) (stations : List Station) (ws we : Timestamp),
          ∀ sl ∈ hourly_station_status trips stations ws we,
            (sl.arrivalsInHour : Int) = sl.totalDocks →
              sl.utilisationPct = 100 ∧ isAtCapacity sl = true
                ∧ isNearCapacity sl = false := by
  refine ⟨?_, near_at_partition group, ?_, ?_⟩
  · unfold instances_near_capacity instances_at_capacity specNearCount
    apply length_filter_split
    intro sl _
    by_cases h : (100:ℚ) ≤ sl.utilisationPct
    · simp [h, not_lt.mpr h]
    · simp [h, lt_of_not_ge h]
  · intro sl hn
    simp only [isNearCapacity, Bool.and_eq_true, decide_eq_true_eq] at hn
    simp only [isAtCapacity, decide_eq_false_iff_not, decide_eq_true_eq]
    exact not_le.mpr hn.2
  · intro trips stations ws we sl hsl heq
    have h := hourly_slot_mem trips stations ws we hsl
    have hd0 : ((sl.totalDocks : ℚ)) ≠ 0 := Int.cast_ne_zero.mpr (ne_of_gt h.1)
    have hcast : ((sl.arrivalsInHour : ℚ)) = (sl.totalDocks : ℚ) := by
      have hq := congrArg (fun z : ℤ => (z : ℚ)) heq
      simpa using hq
    have hutil : sl.utilisationPct = 100 := by
      rw [h.2.1, hcast, div_self hd0, one_mul]
    refine ⟨hutil, ?_, ?_⟩
    · simp only [isAtCapacity, hutil]
      decide
    · simp only [isNearCapacity, hutil]
      decide

def nearOnlySlot : HourlySlot := ⟨1, "A", 10, 0, 8, 1, 9, 90⟩

def c1BoundStations : List Station := [⟨1, "A", 2⟩]

def c1BoundTrips : List Trip :=
  [⟨2, 1, ⟨0, 7⟩, ⟨0, 8⟩⟩, ⟨3, 1, ⟨0, 7⟩, ⟨0, 8⟩⟩]

def c1BoundSlot : HourlySlot :=
  ⟨1, "A", 2, 0, 8, 1, 2, ((2:ℕ) : ℚ) / ((2:Int) : ℚ) * 100⟩

/-- Witness for `capacity_buckets` at concrete slot lists. -/
theorem capacity_buckets_witness :
    (instances_near_capacity [atBoundarySlot] "A" 10
        = instances_at_capacity [atBoundarySlot] "A" 10
            + specNearCount [atBoundarySlot] "A" 10)
      ∧ isAtCapacity nearOnlySlot = false
      ∧ c1BoundSlot.utilisationPct = 100 :=
  ⟨(capacity_buckets [atBoundarySlot] [nearOnlySlot] "A" 10).1,
   (capacity_buckets [atBoundarySlot] [nearOnlySlot] "A" 10).2.2.1 nearOnlySlot
     (by decide),
   ((capacity_buckets [atBoundarySlot] [nearOnlySlot] "A" 10).2.2.2
      c1BoundTrips c1BoundStations ⟨0, 0⟩ ⟨1, 0⟩ c1BoundSlot
      (by
        have h : hourly_station_status c1BoundTrips c1BoundStations ⟨0, 0⟩
            ⟨1, 0⟩ = [c1BoundSlot] := rfl
        rw [h]
        exact List.mem_singleton_self _)
      (by decide)).1⟩

/-! ## Peak Detector claims -/

lemma betterPeak_false_iff (a b : PeakRow) :
    betterPeak a b = false
      ↔ (a.numOccurrences < b.numOccurrences
          ∨ (a.numOccurrences = b.numOccurrences
              ∧ a.avgUtilAtHour ≤ b.avgUtilAtHour)) := by
  unfold betterPeak
  simp only [Bool.or_eq_false_iff, Bool.and_eq_false_iff,
    decide_eq_false_iff_not, not_lt, beq_eq_false_iff_ne, ne_eq]
  constructor
  · rintro ⟨h1, h2⟩
    rcases Nat.lt_trichotomy a.numOccurrences b.numOccurrences with h | h | h
    · exact Or.inl h
    · refine Or.inr ⟨h, ?_⟩
      rcases h2 with h2 | h2
      · exact absurd h h2
      · exact h2
    · exact absurd h1 (not_le.mpr h)
  · rintro (h | ⟨h1, h2⟩)
    · exact ⟨by omega, Or.inl (by omega)⟩
    · exact ⟨by omega, Or.inr h2⟩

lemma betterPeak_true_iff (a b : PeakRow) :
    betterPeak a b = true
      ↔ (b.numOccurrences < a.numOccurrences
          ∨ (a.numOccurrences = b.numOccurrences
              ∧ b.avgUtilAtHour < a.avgUtilAtHour)) := by
  unfold betterPeak
  simp only [Bool.or_eq_true, Bool.and_eq_true, decide_eq_true_eq, beq_iff_eq]

lemma betterPeak_self (a : PeakRow) : betterPeak a a = false :=
  (betterPeak_false_iff a a).mpr (Or.inr ⟨rfl, le_refl _⟩)

lemma betterPeak_false_trans {a b c : PeakRow}
    (h1 : betterPeak a b = false) (h2 : betterPeak b c = false) :
    betterPeak a c = false := by
  rw [betterPeak_false_iff] at h1 h2 ⊢
  rcases h1 with h1 | ⟨h1, h1a⟩ <;> rcases h2 with h2 | ⟨h2, h2a⟩
  · exact Or.inl (by omega)
  · exact Or.inl (by omega)
  · exact Or.inl (by omega)
  · exact Or.inr ⟨by omega, le_trans h1a h2a⟩

lemma betterPeak_true_trans {a b c : PeakRow}
    (h1 : betterPeak a b = true) (h2 : betterPeak b c = true) :
    betterPeak a c = true := by
  rw [betterPeak_true_iff] at h1 h2 ⊢
  rcases h1 with h1 | ⟨h1, h1a⟩ <;> rcases h2 with h2 | ⟨h2, h2a⟩
  · exact Or.inl (by omega)
  · exact Or.inl (by omega)
  · exact Or.inl (by omega)
  · exact Or.inr ⟨by omega, lt_trans h2a h1a⟩

lemma foldl_peakStep_best (l : List PeakRow) (b : PeakRow) :
    ∃ p, l.foldl peakStep (some b) = some p
      ∧ (p = b ∨ p ∈ l) ∧ betterPeak b p = false
      ∧ ∀ x ∈ l, betterPeak x p = false := by
  induction l generalizing b with
  | nil =>
    refine ⟨b, rfl, Or.inl rfl, betterPeak_self b, ?_⟩
    intro x hx
    cases hx
  | cons r rs ih =>
    by_cases hrb : betterPeak r b = true
    · obtain ⟨p, hp, hmem, hrp, hall⟩ := ih r
      have hstep : peakStep (some b) r = some r := by
        have h0 : peakStep (some b) r
            = if betterPeak r b then some r else some b := rfl
        rw [h0, if_pos hrb]
      refine ⟨p, ?_, ?_, ?_, ?_⟩
      · rw [List.foldl_cons, hstep]
        exact hp
      · rcases hmem with rfl | h
        · exact Or.inr (List.mem_cons_self _ _)
        · exact Or.inr (List.mem_cons_of_mem _ h)
      · cases hbp : betterPeak b p
        · rfl
        · have htr := betterPeak_true_trans hrb hbp
          rw [hrp] at htr
          exact absurd htr (by decide)
      · intro x hx
        rcases List.mem_cons.mp hx with rfl | hx'
        · exact hrp
        · exact hall x hx'
    · have hrb' : betterPeak r b = false := by
        cases h : betterPeak r b
        · rfl
        · exact absurd h hrb
      obtain ⟨p, hp, hmem, hbp, hall⟩ := ih b
      have hstep : peakStep (some b) r = some b := by
        have h0 : peakStep (some b) r
            = if betterPeak r b then some r else some b := rfl
        rw [h0, if_neg hrb]
      refine ⟨p, ?_, ?_, hbp, ?_⟩
      · rw [List.foldl_cons, hstep]
        exact hp
      · rcases hmem with rfl | h
        · exact Or.inl rfl
        · exact Or.inr (List.mem_cons_of_mem _ h)
      · intro x hx
        rcases List.mem_cons.mp hx with rfl | hx'
        · exact betterPeak_false_trans hrb' hbp
        · exact hall x hx'

lemma selectPeak_none_iff (st : String) (rows : List PeakRow) :
    selectPeak st rows = none
      ↔ rows.filter (fun r => r.stationName == st) = [] := by
  unfold selectPeak
  cases hf : rows.filter (fun r => r.stationName == st) with
  | nil => simp
  | cons x xs =>
    rw [List.foldl_cons]
    have hstep : peakStep none x = some x := rfl
    rw [hstep]
    obtain ⟨p, hp, _, _, _⟩ := foldl_peakStep_best xs x
    rw [hp]
    simp

lemma peak_hours_mem_station (slots : List HourlySlot) (st : String) :
    (∃ r ∈ peak_hours slots, r.stationName = st)
      ↔ ∃ sl ∈ slots, sl.stationName = st ∧ (95:ℚ) ≤ sl.utilisationPct := by
  constructor
  · rintro ⟨r, hr, hst⟩
    unfold peak_hours at hr
    obtain ⟨k, hk, rfl⟩ := List.mem_map.mp hr
    have hkm : k ∈ (highUtilSlots slots).map peakKey := List.mem_dedup.mp hk
    obtain ⟨sl, hsl, hslk⟩ := List.mem_map.mp hkm
    obtain ⟨hslmem, hpred⟩ := List.mem_filter.mp hsl
    refine ⟨sl, hslmem, ?_, of_decide_eq_true hpred⟩
    have : sl.stationName = k.1 := by rw [← hslk]; rfl
    rw [this]
    exact hst
  · rintro ⟨sl, hsl, hst, h95⟩
    have hhi : sl ∈ highUtilSlots slots :=
      List.mem_filter.mpr ⟨hsl, decide_eq_true h95⟩
    have hk : peakKey sl ∈ ((highUtilSlots slots).map peakKey).dedup :=
      List.mem_dedup.mpr (List.mem_map.mpr ⟨sl, hhi, rfl⟩)
    refine ⟨_, List.mem_map.mpr ⟨peakKey sl, hk, rfl⟩, hst⟩

/-- C4 amended: selectPeak yields at most one row per station; it is `none`
exactly when the station has no hourly slot at 95%+ utilisation; any
selected row belongs to the station's peak_hours candidates and no candidate
beats it on (occurrence count, then average utilisation).  Among candidates
fully tied on both keys the survivor is whichever the engine enumerates
first, a rule the query does not pin down. -/
theorem peak_selection (slots : List HourlySlot) (st : String) :
    (selectPeak st (peak_hours slots) = none
        ↔ ∀ sl ∈ slots, sl.stationName = st → sl.utilisationPct < 95)
      ∧ ∀ p, selectPeak st (peak_hours slots) = some p →
          p.stationName = st ∧ p ∈ peak_hours slots
            ∧ ∀ r ∈ peak_hours slots, r.stationName = st →
                (r.numOccurrences < p.numOccurrences
                  ∨ (r.numOccurrences = p.numOccurrences
                      ∧ r.avgUtilAtHour ≤ p.avgUtilAtHour)) := by
  constructor
  · rw [selectPeak_none_iff, List.filter_eq_nil_iff]
    constructor
    · intro h sl hsl hst
      by_contra hge
      have h95 : (95:ℚ) ≤ sl.utilisationPct := not_lt.mp hge
      obtain ⟨r, hr, hrst⟩ := (peak_hours_mem_station slots st).mpr
        ⟨sl, hsl, hst, h95⟩
      exact h r hr (by simp [hrst])
    · intro h r hr hrst
      have hst : r.stationName = st := by simpa using hrst
      obtain ⟨sl, hsl, hslst, h95⟩ := (peak_hours_mem_station slots st).mp
        ⟨r, hr, hst⟩
      exact absurd h95 (not_le.mpr (h sl hsl hslst))
  · intro p hp
    unfold selectPeak at hp
    cases hf : (peak_hours slots).filter (fun r => r.stationName == st) with
    | nil =>
      rw [hf] at hp
      cases hp
    | cons x xs =>
      rw [hf, List.foldl_cons] at hp
      have hstep : peakStep none x = some x := rfl
      rw [hstep] at hp
      obtain ⟨p', hp', hmem, hxp, hall⟩ := foldl_peakStep_best xs x
      rw [hp'] at hp
      have hpp : p' = p := by injection hp
      rw [hpp] at hmem hxp hall
      have hpfilter : p ∈ (peak_hours slots).filter
          (fun r => r.stationName == st) := by
        rw [hf]
        rcases hmem with rfl | h
        · exact List.mem_cons_self _ _
        · exact List.mem_cons_of_mem _ h
      obtain ⟨hpmem, hpst⟩ := List.mem_filter.mp hpfilter
      refine ⟨by simpa using hpst, hpmem, ?_⟩
      intro r hr hrst
      have hrfilter : r ∈ (peak_hours slots).filter
          (fun r => r.stationName == st) :=
        List.mem_filter.mpr ⟨hr, by simp [hrst]⟩
      rw [hf] at hrfilter
      have hbetter : betterPeak r p = false := by
        rcases List.mem_cons.mp hrfilter with rfl | hx'
        · exact hxp
        · exact hall r hx'
      exact (betterPeak_false_iff r p).mp hbetter

def tiePeakA : PeakRow := ⟨"A", 8, 1, 1, 100⟩

def tiePeakB : PeakRow := ⟨"A", 9, 1, 1, 100⟩

/-- C4 counterexample: two candidate rows fully tied on occurrence count and
average utilisation.  The surviving row of
`ROW_NUMBER() OVER (... ORDER BY num_occurrences DESC, avg_util_at_hour DESC) = 1`
depends on the order the engine enumerates the tied rows: the two
enumeration orders of the same multiset of rows select different slots, so
the remaining tie is not resolved by any explicitly defined deterministic
rule. -/
theorem peak_tie_order_dependent :
    [tiePeakA, tiePeakB].Perm [tiePeakB, tiePeakA]
      ∧ selectPeak "A" [tiePeakA, tiePeakB]
          ≠ selectPeak "A" [tiePeakB, tiePeakA] := by
  constructor
  · exact List.Perm.swap tiePeakB tiePeakA []
  · decide

def c4Slot : HourlySlot := ⟨1, "A", 10, 0, 8, 1, 10, 100⟩

def c4LowSlot : HourlySlot := ⟨1, "A", 10, 0, 9, 1, 9, 90⟩

def c4Peak : PeakRow := ⟨"A", 8, 1, 1, ([(100:ℚ)]).sum / ((1:ℕ) : ℚ)⟩

/-- Witness for `peak_selection`: a station whose only slots are below 95%
has no peak, and the single 100% slot of the mixed input is selected. -/
theorem peak_selection_witness :
    selectPeak "A" (peak_hours [c4LowSlot]) = none
      ∧ c4Peak.stationName = "A"
      ∧ c4Peak ∈ peak_hours [c4Slot, c4LowSlot] :=
  ⟨(peak_selection [c4LowSlot] "A").1.mpr (by decide),
   ((peak_selection [c4Slot, c4LowSlot] "A").2 c4Peak rfl).1,
   ((peak_selection [c4Slot, c4LowSlot] "A").2 c4Peak rfl).2.1⟩
